import Mathlib

/-!
Verification of the vector-memory bridge and the transcript endpoint of
this repository. The command-line dispatch (`main` of chroma_bridge.py)
and the HTTP handler (`get_transcript` of youtube_transcript_server.py)
are embedded directly from the source. The vector-collection engine the
bridge delegates to (add/search/delete/list with dimension checking,
upsert semantics and exhaustive nearest-neighbour scoring) is not in the
repository's source tree — the bridge forwards every operation to an
external library — so it is modelled from the specification's Collection
Store design (sections 3, 4.2 and 8 of the spec).
-/

namespace VectorMemory

/-- Modelled from the spec: a metadata scalar value — string, number, or
boolean (section 3, Metadata). Numbers are modelled as rationals. -/
inductive Scalar where
  | str (s : String)
  | num (q : ℚ)
  | boolean (b : Bool)
deriving DecidableEq, Repr

/-- Modelled from the spec: metadata is a mapping from string keys to
scalar values, opaque to search. -/
abbrev Metadata := List (String × Scalar)

/-- Modelled from the spec: an embedding is an ordered sequence of
numbers; its length is the collection's dimension. Reals are modelled as
rationals so that distances are computable and comparison is decidable. -/
abbrev Embedding := List ℚ

/-- Modelled from the spec: a record is `(id, embedding, metadata)`
(section 3, Record). -/
structure Rec where
  id : String
  emb : Embedding
  meta : Metadata
deriving DecidableEq, Repr

/-- Modelled from the spec: the domain error taxonomy (section 7). -/
inductive Err where
  | InvalidInput
  | DimensionMismatch
  | CorruptRecord
  | StorageUnavailable
deriving DecidableEq, Repr

/-- Modelled from the spec: one collection's in-memory state — its
dimension (`none` until the first successful insert fixes it) and the
currently indexed records, in insertion order. -/
structure Collection where
  dim : Option Nat
  recs : List Rec
deriving DecidableEq, Repr

def emptyCollection : Collection := ⟨none, []⟩

/-- Modelled from the spec: upsert — insert-or-replace by unique id
(section 3: re-adding an existing id replaces embedding and metadata). -/
def upsert (rs : List Rec) (r : Rec) : List Rec :=
  match rs with
  | [] => [r]
  | s :: rest => if s.id = r.id then r :: rest else s :: upsert rest r

/-- Modelled from the spec: batch add (section 4.2). Requires
equal-length input sequences; on first call fixes the collection's
dimension to the first embedding's length; fails with
`DimensionMismatch` if any embedding's length differs from the fixed
dimension, all-or-nothing (an error leaves the caller's state
untouched); on success each `(id, embedding, metadata)` is upserted. -/
def Collection.addBatch (c : Collection) (ids : List String)
    (embs : List Embedding) (metas : List Metadata) : Except Err Collection :=
  if ids.length = embs.length ∧ embs.length = metas.length then
    match c.dim, embs.head? with
    | none, none => .ok c
    | none, some e0 =>
      if embs.all (fun e => e.length = e0.length) then
        .ok ⟨some e0.length,
          ((ids.zip (embs.zip metas)).map
            (fun p => Rec.mk p.1 p.2.1 p.2.2)).foldl upsert c.recs⟩
      else .error .DimensionMismatch
    | some d, _ =>
      if embs.all (fun e => e.length = d) then
        .ok ⟨some d,
          ((ids.zip (embs.zip metas)).map
            (fun p => Rec.mk p.1 p.2.1 p.2.2)).foldl upsert c.recs⟩
      else .error .DimensionMismatch
  else .error .InvalidInput

/-- Modelled from the spec: delete removes the record for `id` from the
index; deleting an absent id succeeds silently (section 4.2). -/
def Collection.del (c : Collection) (id : String) : Collection :=
  ⟨c.dim, c.recs.filter (fun r => r.id ≠ id)⟩

/-- Modelled from the spec: list returns every record currently
indexed. -/
def Collection.listRecs (c : Collection) : List Rec :=
  c.recs

/-- One search result entry `(id, distance, metadata)`. -/
structure Hit where
  id : String
  dist : ℚ
  meta : Metadata
deriving DecidableEq, Repr

/-- Result ordering of the spec: ascending by distance, ties broken by
ascending lexicographic id. -/
def hitLE (a b : Hit) : Prop :=
  a.dist < b.dist ∨ (a.dist = b.dist ∧ a.id ≤ b.id)

instance : DecidableRel hitLE := fun a b => by
  unfold hitLE; exact inferInstance

instance : IsTotal Hit hitLE where
  total a b := by
    unfold hitLE
    rcases lt_trichotomy a.dist b.dist with h | h | h
    · exact Or.inl (Or.inl h)
    · rcases le_total a.id b.id with h2 | h2
      · exact Or.inl (Or.inr ⟨h, h2⟩)
      · exact Or.inr (Or.inr ⟨h.symm, h2⟩)
    · exact Or.inr (Or.inl h)

instance : IsTrans Hit hitLE where
  trans a b c hab hbc := by
    unfold hitLE at *
    rcases hab with h1 | ⟨h1, h1i⟩
    · rcases hbc with h2 | ⟨h2, _⟩
      · exact Or.inl (h1.trans h2)
      · exact Or.inl (h2 ▸ h1)
    · rcases hbc with h2 | ⟨h2, h2i⟩
      · exact Or.inl (h1 ▸ h2)
      · exact Or.inr ⟨h1.trans h2, h1i.trans h2i⟩

/-- Modelled from the spec: exhaustive (brute-force) similarity search
(section 4.2). Fails with `DimensionMismatch` when the query's length
differs from the collection's fixed dimension; otherwise scores every
stored record with the collection's distance metric (passed as the
parameter `dist`, since the spec lets each collection pick its metric),
sorts ascending by distance with ties broken by ascending id, and takes
the first `top_k`. Searching a collection with no fixed dimension yet
(never inserted into) returns the empty result. -/
def Collection.search (dist : Embedding → Embedding → ℚ) (c : Collection)
    (q : Embedding) (top_k : Nat) : Except Err (List Hit) :=
  match c.dim with
  | none => .ok []
  | some d =>
    if q.length = d then
      .ok (((c.recs.map (fun r => Hit.mk r.id (dist q r.emb) r.meta)).insertionSort
        hitLE).take top_k)
    else .error .DimensionMismatch

/-- The squared Euclidean distance, one of the two metrics the spec
allows a collection to fix at creation. Used to instantiate witnesses. -/
def sqEuclid (a b : Embedding) : ℚ :=
  ((a.zip b).map (fun p => (p.1 - p.2) * (p.1 - p.2))).sum

/-- Well-formedness invariant of a collection: every stored embedding's
length equals the collection's fixed dimension, and ids are unique. -/
def Collection.WF (c : Collection) : Prop :=
  (∀ r ∈ c.recs, some r.emb.length = c.dim) ∧ (c.recs.map Rec.id).Nodup

/-- The search success payload as produced by the bridge response:
aligned arrays of ids, distances and metadatas. -/
structure SearchResponse where
  ids : List String
  distances : List ℚ
  metadatas : List Metadata
deriving Repr

def toResponse (hits : List Hit) : SearchResponse :=
  ⟨hits.map Hit.id, hits.map Hit.dist, hits.map Hit.meta⟩

end VectorMemory

namespace Bridge

/-- A JSON value, as far as the bridge's dispatch code inspects one. -/
inductive Json where
  | null
  | str (s : String)
  | num (q : ℚ)
  | boolean (b : Bool)
  | arr (l : List Json)
  | obj (l : List (String × Json))

/-- Dictionary field access, as in the Python expression data[key] on a
parsed JSON object; `none` when the key is absent (Python: KeyError). -/
def Json.field : Json → String → Option Json
  | .obj l, k => l.lookup k
  | _, _ => none

/-- An uncaught Python exception terminating the process with a
traceback. -/
inductive Crash where
  | keyError
  | jsonDecodeError
  | indexError
  | valueError
deriving DecidableEq, Repr

/-- The observable outcome of one invocation of main in
chroma_bridge.py: the usage diagnostic on stderr with exit 1, the
unknown-operation diagnostic with exit 1, a delegated library call with
the arguments main marshals for it, or an uncaught exception. -/
inductive Dispatch where
  | usageError
  | unknownOp (op : String)
  | callAdd (collection : String) (ids embeddings metadatas : Json)
  | callSearch (collection : String) (queryEmbedding : Json) (top_k : Int)
  | callDelete (collection : String) (id : String)
  | callList (collection : String)
  | crash (c : Crash)

/-- Value of a list of decimal digit characters, or `none` when the
list is empty or holds a non-digit. -/
def digitsVal (l : List Char) : Option Nat :=
  if l ≠ [] ∧ l.all Char.isDigit then
    some (l.foldl (fun a c => 10 * a + (c.toNat - 48)) 0)
  else none

/-- The Python conversion int(s) on a command-line string: an optional
sign followed by decimal digits; `none` models the ValueError raised on
any other shape. -/
def strToInt (s : String) : Option Int :=
  match s.toList with
  | '-' :: ds => (digitsVal ds).map (fun n => -(n : Int))
  | '+' :: ds => (digitsVal ds).map (fun n => (n : Int))
  | ds => (digitsVal ds).map (fun n => (n : Int))

/-- Embedding of main from src/vector-memory/chroma_bridge.py.
`argv` is sys.argv (program name included); `stdin` is the result of
json.load(sys.stdin), `none` when standard input is not valid JSON.
Mirrors the source line by line: the argument-count guard, then
dispatch on argv[1]; the add branch reads data["ids"],
data["embeddings"], data["metadatas"] (KeyError when one is missing);
the search branch computes top_k from argv[3] when present (ValueError
when not an integer) with default 5, then reads
data["queryEmbedding"]; the delete branch reads argv[3] with no bounds
guard (IndexError when absent); the list branch takes no payload. -/
def mainDispatch (argv : List String) (stdin : Option Json) : Dispatch :=
  if argv.length < 3 then .usageError
  else
    let op := argv.getD 1 ""
    let collection := argv.getD 2 ""
    if op = "add" then
      match stdin with
      | none => .crash .jsonDecodeError
      | some data =>
        match data.field "ids", data.field "embeddings", data.field "metadatas" with
        | some i, some e, some m => .callAdd collection i e m
        | _, _, _ => .crash .keyError
    else if op = "search" then
      match (if 3 < argv.length then (strToInt (argv.getD 3 "")).map Except.ok
              |>.getD (Except.error Crash.valueError) else .ok 5) with
      | .error c => .crash c
      | .ok tk =>
        match stdin with
        | none => .crash .jsonDecodeError
        | some data =>
          match data.field "queryEmbedding" with
          | some q => .callSearch collection q tk
          | none => .crash .keyError
    else if op = "delete" then
      match argv.get? 3 with
      | some i => .callDelete collection i
      | none => .crash .indexError
    else if op = "list" then .callList collection
    else .unknownOp op

end Bridge

namespace TranscriptServer

open Bridge (Json)

/-- The outcome of the external call
YouTubeTranscriptApi.get_transcript(video_id): the fetched segment
texts in order, or one of the two library exceptions the handler names,
or any other exception with its message. -/
inductive FetchOutcome where
  | success (texts : List String)
  | transcriptsDisabled
  | noTranscriptFound
  | otherFailure (msg : String)

/-- Embedding of the route handler get_transcript from
src/config/youtube_transcript_server.py. `video_id` is
request.args.get, `none` when the query parameter is absent. Returns
the JSON body and the HTTP status. Mirrors the source: the Python
falsy test `if not video_id` rejects both an absent and an empty
parameter with 400; on success the segment texts are joined with a
single space; the two caption exceptions map to 404 and any other
exception to 500 with its message. -/
def get_transcript (video_id : Option String) (fetch : FetchOutcome) :
    Json × Nat :=
  if video_id = none ∨ video_id = some "" then
    (.obj [("error", .str "Missing video_id parameter")], 400)
  else
    match fetch with
    | .success texts =>
      (.obj [("transcript", .str (String.intercalate " " texts))], 200)
    | .transcriptsDisabled =>
      (.obj [("error", .str "Transcripts are disabled for this video.")], 404)
    | .noTranscriptFound =>
      (.obj [("error", .str "No transcript found for this video.")], 404)
    | .otherFailure msg => (.obj [("error", .str msg)], 500)

end TranscriptServer

namespace VectorMemory

theorem upsert_upsert (rs : List Rec) (r : Rec) :
    upsert (upsert rs r) r = upsert rs r := by
  induction rs with
  | nil => simp [upsert]
  | cons s rest ih =>
    by_cases h : s.id = r.id
    · simp [upsert, h]
    · simp [upsert, h, ih]

theorem mem_upsert_self (rs : List Rec) (r : Rec) : r ∈ upsert rs r := by
  induction rs with
  | nil => simp [upsert]
  | cons s rest ih =>
    by_cases h : s.id = r.id
    · simp [upsert, h]
    · simp [upsert, h]
      exact Or.inr ih

theorem mem_of_mem_upsert {rs : List Rec} {r r' : Rec}
    (h : r' ∈ upsert rs r) : r' ∈ rs ∨ r' = r := by
  induction rs with
  | nil => simp [upsert] at h; exact Or.inr h
  | cons s rest ih =>
    by_cases hs : s.id = r.id
    · simp [upsert, hs] at h
      rcases h with h | h
      · exact Or.inr h
      · exact Or.inl (List.mem_cons_of_mem _ h)
    · simp [upsert, hs] at h
      rcases h with h | h
      · exact Or.inl (h ▸ List.mem_cons_self _ _)
      · rcases ih h with h2 | h2
        · exact Or.inl (List.mem_cons_of_mem _ h2)
        · exact Or.inr h2

theorem del_not_mem (c : Collection) (i : String) :
    i ∉ (c.del i).recs.map Rec.id := by
  intro h
  rcases List.mem_map.1 h with ⟨r, hr, hid⟩
  rcases List.mem_filter.1 hr with ⟨_, hpred⟩
  simp at hpred
  exact hpred hid

theorem del_absent_noop (c : Collection) (i : String)
    (h : i ∉ c.recs.map Rec.id) : c.del i = c := by
  cases c with
  | mk dim recs =>
    simp [Collection.del]
    intro r hr hc
    exact h (List.mem_map.2 ⟨r, hr, hc⟩)

end VectorMemory

open VectorMemory in
/-- C2: adding the same `(id, embedding, metadata)` twice in succession
yields a collection state identical to adding it once, and the re-add of
the existing id replaces (keeps) its embedding and metadata rather than
failing: the record is present in the resulting state. -/
theorem c2_upsert_idempotent (c c' : Collection) (i : String)
    (e : Embedding) (m : Metadata)
    (h : c.addBatch [i] [e] [m] = .ok c') :
    c'.addBatch [i] [e] [m] = .ok c' ∧ Rec.mk i e m ∈ c'.recs := by
  cases c with
  | mk dim recs =>
    cases dim with
    | none =>
      simp [Collection.addBatch] at h
      subst h
      constructor
      · simp [Collection.addBatch, upsert_upsert]
      · exact mem_upsert_self _ _
    | some d =>
      by_cases hd : e.length = d
      · simp [Collection.addBatch, hd] at h
        subst h
        constructor
        · simp [Collection.addBatch, hd, upsert_upsert]
        · exact mem_upsert_self _ _
      · simp [Collection.addBatch, hd] at h

open VectorMemory in
/-- Witness for c2_upsert_idempotent at a concrete collection and
record. -/
theorem c2_upsert_idempotent_witness :
    (emptyCollection.addBatch ["a"] [[1, 0]] [[]]
      = .ok ⟨some 2, [⟨"a", [1, 0], []⟩]⟩) ∧
    ((⟨some 2, [⟨"a", [1, 0], []⟩]⟩ : Collection).addBatch ["a"] [[1, 0]] [[]]
      = .ok ⟨some 2, [⟨"a", [1, 0], []⟩]⟩ ∧
      Rec.mk "a" [1, 0] [] ∈ (⟨some 2, [⟨"a", [1, 0], []⟩]⟩ : Collection).recs) :=
  ⟨rfl,
   c2_upsert_idempotent emptyCollection ⟨some 2, [⟨"a", [1, 0], []⟩]⟩
     "a" [1, 0] [] rfl⟩

open VectorMemory in
/-- C5: delete always succeeds: after `delete(id)` the listed records
never contain `id`, a subsequent `delete(id)` is a no-op that still
succeeds, and deleting an id absent from the collection leaves the
collection unchanged (a no-op, not an error). -/
theorem c5_delete_consistency (c : Collection) (i : String) :
    i ∉ (c.del i).listRecs.map Rec.id ∧
    (c.del i).del i = c.del i ∧
    (i ∉ c.listRecs.map Rec.id → c.del i = c) :=
  ⟨del_not_mem c i,
   del_absent_noop (c.del i) i (del_not_mem c i),
   del_absent_noop c i⟩

open VectorMemory in
/-- Witness for c5_delete_consistency on a concrete collection, with
the absent-id hypothesis of the final conjunct discharged. -/
theorem c5_delete_consistency_witness :
    ("a" ∉ ((⟨some 1, [⟨"b", [1], []⟩]⟩ : Collection).del "a").listRecs.map Rec.id) ∧
    ((⟨some 1, [⟨"b", [1], []⟩]⟩ : Collection).del "a" = ⟨some 1, [⟨"b", [1], []⟩]⟩) :=
  ⟨(c5_delete_consistency ⟨some 1, [⟨"b", [1], []⟩]⟩ "a").1,
   (c5_delete_consistency ⟨some 1, [⟨"b", [1], []⟩]⟩ "a").2.2 (by decide)⟩

/-- C4: evaluation of the command interface at a failing input. The
spec requires every domain error (here InvalidInput: a payload missing
the required "ids" field) to be converted into a structured error
response at the Command Interface boundary, but main in
chroma_bridge.py has no exception handling at all: the invocation
add with a syntactically valid but field-less JSON payload dies with an
uncaught KeyError traceback instead of producing any response value. -/
theorem c4_invalid_payload_crashes :
    Bridge.mainDispatch ["chroma_bridge.py", "add", "notes"]
      (some (.obj [])) = .crash .keyError := rfl

/-- C10: the delete operation invoked with a collection name but no id
argument (exactly three argv entries) passes the argument-count guard
(which only requires at least three entries) and then reads
sys.argv[3] unconditionally, terminating with an uncaught IndexError
rather than the usage diagnostic or a structured error response —
whatever standard input holds. -/
theorem c10_delete_missing_id_crashes (p co : String)
    (stdin : Option Bridge.Json) :
    Bridge.mainDispatch [p, "delete", co] stdin = .crash .indexError := rfl

open VectorMemory in
/-- C7: a search invocation that omits top_k behaves exactly as if
top_k = 5 had been supplied on the command line (whatever standard
input holds), and for any successful search the response's ids,
distances and metadatas arrays are aligned with a common length that is
at most top_k. -/
theorem c7_default_top_k (p co : String) (stdin : Option Bridge.Json)
    (dist : Embedding → Embedding → ℚ) (c : Collection) (q : Embedding)
    (k : Nat) (hits : List Hit)
    (h : c.search dist q k = .ok hits) :
    Bridge.mainDispatch [p, "search", co] stdin
      = Bridge.mainDispatch [p, "search", co, "5"] stdin ∧
    (toResponse hits).ids.length = hits.length ∧
    (toResponse hits).distances.length = hits.length ∧
    (toResponse hits).metadatas.length = hits.length ∧
    hits.length ≤ k := by
  refine ⟨by rfl, by simp [toResponse], by simp [toResponse], by simp [toResponse], ?_⟩
  cases hc : c.dim with
  | none =>
    simp [Collection.search, hc] at h
    subst h
    simp
  | some d =>
    by_cases hq : q.length = d
    · simp [Collection.search, hc, hq] at h
      rw [← h]
      exact (List.length_take _ _).le.trans (min_le_left _ _)
    · simp [Collection.search, hc, hq] at h

open VectorMemory in
/-- Witness for c7_default_top_k at a concrete collection, query and
top_k, with the search-success hypothesis discharged. -/
theorem c7_default_top_k_witness :
    (⟨some 1, [⟨"a", [0], []⟩]⟩ : Collection).search sqEuclid [0] 5
      = .ok [⟨"a", 0, []⟩] ∧
    (Bridge.mainDispatch ["chroma_bridge.py", "search", "notes"] none
      = Bridge.mainDispatch ["chroma_bridge.py", "search", "notes", "5"] none ∧
    (toResponse [⟨"a", 0, []⟩]).ids.length = 1 ∧
    (toResponse [⟨"a", 0, []⟩]).distances.length = 1 ∧
    (toResponse [⟨"a", 0, []⟩]).metadatas.length = 1 ∧
    (1 : Nat) ≤ 5) :=
  ⟨by simp [Collection.search, sqEuclid, List.insertionSort, List.orderedInsert],
   c7_default_top_k "chroma_bridge.py" "notes" none sqEuclid
     ⟨some 1, [⟨"a", [0], []⟩]⟩ [0] 5 [⟨"a", 0, []⟩]
     (by simp [Collection.search, sqEuclid, List.insertionSort, List.orderedInsert])⟩

open TranscriptServer in
/-- C9: a successful caption retrieval returns the segment texts joined
with a single space, and an empty segment list yields the empty
string. -/
theorem c9_transcript_join (v : String) (hv : v ≠ "")
    (texts : List String) :
    get_transcript (some v) (.success texts)
      = (.obj [("transcript", .str (String.intercalate " " texts))], 200) ∧
    get_transcript (some v) (.success [])
      = (.obj [("transcript", .str "")], 200) := by
  constructor
  · simp [get_transcript, hv]
  · simp [get_transcript, hv]
    rfl

open TranscriptServer in
/-- Witness for c9_transcript_join at a concrete video id and segment
list. -/
theorem c9_transcript_join_witness :
    get_transcript (some "abc123") (.success ["hello", "world"])
      = (.obj [("transcript", .str "hello world")], 200) ∧
    get_transcript (some "abc123") (.success [])
      = (.obj [("transcript", .str "")], 200) :=
  c9_transcript_join "abc123" (by decide) ["hello", "world"]

open TranscriptServer in
/-- C8 counterexample: the claim says status 400 occurs exactly when
the video_id parameter is missing, but the handler's Python falsy test
also rejects a present-but-empty parameter: with video_id supplied as
the empty string (and captions available), the response status is 400
even though the parameter is not missing. -/
theorem c8_counterexample :
    (some "" ≠ (none : Option String)) ∧
    (TranscriptServer.get_transcript (some "") (.success ["hello"])).2 = 400 :=
  ⟨by simp, rfl⟩

open TranscriptServer Bridge in
/-- C8 amended: the response is transcript-on-success and
error-otherwise, with status 400 exactly when video_id is missing or
empty, 404 exactly when (video_id is usable and) captions are disabled
or absent, and 500 exactly on any other failure. -/
theorem c8_status_partition (vid : Option String) (fetch : FetchOutcome) :
    ((get_transcript vid fetch).2 = 400 ↔ (vid = none ∨ vid = some "")) ∧
    ((get_transcript vid fetch).2 = 404 ↔ (¬(vid = none ∨ vid = some "") ∧
      (fetch = .transcriptsDisabled ∨ fetch = .noTranscriptFound))) ∧
    ((get_transcript vid fetch).2 = 500 ↔ (¬(vid = none ∨ vid = some "") ∧
      ∃ m, fetch = .otherFailure m)) ∧
    ((∃ t, (get_transcript vid fetch).1 = .obj [("transcript", Json.str t)]) ↔
      (¬(vid = none ∨ vid = some "") ∧ ∃ ts, fetch = .success ts)) ∧
    ((∃ s, (get_transcript vid fetch).1 = .obj [("error", Json.str s)]) ∨
      (∃ t, (get_transcript vid fetch).1 = .obj [("transcript", Json.str t)])) := by
  by_cases hv : vid = none ∨ vid = some "" <;>
    cases fetch <;>
      simp [get_transcript, hv]

open VectorMemory in
/-- C1: for a collection of N records and a query of the collection's
dimension with top_k at most N, search succeeds and returns exactly
top_k results, sorted ascending by distance with ties broken by
ascending lexicographic id (the relation hitLE), every returned entry
scores an actual stored record, and no stored record whose id was not
returned is closer to the query than any returned entry. -/
theorem c1_search_correct (dist : Embedding → Embedding → ℚ)
    (c : VectorMemory.Collection) (d : Nat) (q : Embedding) (k : Nat)
    (hdim : c.dim = some d) (hq : q.length = d) (hk : k ≤ c.recs.length) :
    ∃ hits, c.search dist q k = .ok hits ∧
      hits.length = k ∧
      List.Sorted hitLE hits ∧
      (∀ h ∈ hits, ∃ r ∈ c.recs, h = Hit.mk r.id (dist q r.emb) r.meta) ∧
      (∀ r ∈ c.recs, r.id ∉ hits.map Hit.id →
        ∀ h ∈ hits, h.dist ≤ dist q r.emb) := by
  refine ⟨((c.recs.map (fun r => Hit.mk r.id (dist q r.emb) r.meta)).insertionSort
    hitLE).take k, ?_, ?_, ?_, ?_, ?_⟩
  · simp [Collection.search, hdim, hq]
  · rw [List.length_take, List.length_insertionSort, List.length_map]
    exact min_eq_left hk
  · exact List.Pairwise.sublist (List.take_sublist k _)
      (List.sorted_insertionSort hitLE _)
  · intro h hh
    have h1 : h ∈ (c.recs.map (fun r => Hit.mk r.id (dist q r.emb) r.meta)).insertionSort
        hitLE := List.mem_of_mem_take hh
    have h2 := (List.mem_insertionSort hitLE).1 h1
    rcases List.mem_map.1 h2 with ⟨r, hr, he⟩
    exact ⟨r, hr, he.symm⟩
  · intro r hr hnot h hh
    have hsmem : Hit.mk r.id (dist q r.emb) r.meta
        ∈ c.recs.map (fun r => Hit.mk r.id (dist q r.emb) r.meta) :=
      List.mem_map.2 ⟨r, hr, rfl⟩
    have hsrtmem := (List.mem_insertionSort hitLE).2 hsmem
    rw [← List.take_append_drop k ((c.recs.map
      (fun r => Hit.mk r.id (dist q r.emb) r.meta)).insertionSort hitLE)] at hsrtmem
    rcases List.mem_append.1 hsrtmem with hmem | hmem
    · exact absurd (List.mem_map.2 ⟨_, hmem, rfl⟩) hnot
    · have hsorted : List.Pairwise hitLE
          ((((c.recs.map (fun r => Hit.mk r.id (dist q r.emb) r.meta)).insertionSort
            hitLE).take k) ++ (((c.recs.map
            (fun r => Hit.mk r.id (dist q r.emb) r.meta)).insertionSort
            hitLE).drop k)) := by
        rw [List.take_append_drop]
        exact List.sorted_insertionSort hitLE _
      have hrel := (List.pairwise_append.1 hsorted).2.2 h hh _ hmem
      rcases hrel with h1 | ⟨h1, _⟩
      · exact le_of_lt h1
      · exact le_of_eq h1

open VectorMemory in
/-- Witness for c1_search_correct on a concrete two-record collection
with top_k = 1. -/
theorem c1_search_correct_witness :
    ((⟨some 1, [⟨"b", [0], []⟩, ⟨"a", [1], []⟩]⟩ : Collection).dim = some 1) ∧
    (([0] : Embedding).length = 1) ∧
    (1 ≤ [(⟨"b", [0], []⟩ : Rec), ⟨"a", [1], []⟩].length) ∧
    (∃ hits, (⟨some 1, [⟨"b", [0], []⟩, ⟨"a", [1], []⟩]⟩ : Collection).search
        sqEuclid [0] 1 = .ok hits ∧
      hits.length = 1 ∧
      List.Sorted hitLE hits ∧
      (∀ h ∈ hits, ∃ r ∈ [(⟨"b", [0], []⟩ : Rec), ⟨"a", [1], []⟩],
        h = Hit.mk r.id (sqEuclid [0] r.emb) r.meta) ∧
      (∀ r ∈ [(⟨"b", [0], []⟩ : Rec), ⟨"a", [1], []⟩],
        r.id ∉ hits.map Hit.id → ∀ h ∈ hits, h.dist ≤ sqEuclid [0] r.emb)) :=
  ⟨rfl, rfl, by decide,
   c1_search_correct sqEuclid ⟨some 1, [⟨"b", [0], []⟩, ⟨"a", [1], []⟩]⟩
     1 [0] 1 rfl rfl (by decide)⟩

open VectorMemory in
/-- C6: search with top_k exceeding the collection size returns all N
records and reports no error. -/
theorem c6_top_k_saturation (dist : Embedding → Embedding → ℚ)
    (c : VectorMemory.Collection) (d : Nat) (q : Embedding) (k : Nat)
    (hdim : c.dim = some d) (hq : q.length = d) (hk : c.recs.length < k) :
    ∃ hits, c.search dist q k = .ok hits ∧ hits.length = c.recs.length := by
  refine ⟨((c.recs.map (fun r => Hit.mk r.id (dist q r.emb) r.meta)).insertionSort
    hitLE).take k, ?_, ?_⟩
  · simp [Collection.search, hdim, hq]
  · rw [List.length_take, List.length_insertionSort, List.length_map]
    exact min_eq_right hk.le

open VectorMemory in
/-- Witness for c6_top_k_saturation: one record, top_k = 5. -/
theorem c6_top_k_saturation_witness :
    ((⟨some 1, [⟨"a", [0], []⟩]⟩ : Collection).dim = some 1) ∧
    (([0] : Embedding).length = 1) ∧
    ([(⟨"a", [0], []⟩ : Rec)].length < 5) ∧
    (∃ hits, (⟨some 1, [⟨"a", [0], []⟩]⟩ : Collection).search sqEuclid [0] 5
        = .ok hits ∧ hits.length = 1) :=
  ⟨rfl, rfl, by decide,
   c6_top_k_saturation sqEuclid ⟨some 1, [⟨"a", [0], []⟩]⟩ 1 [0] 5
     rfl rfl (by decide)⟩

namespace VectorMemory

theorem foldl_upsert_mem (L : List Rec) (rs : List Rec) (r' : Rec)
    (h : r' ∈ L.foldl upsert rs) : r' ∈ rs ∨ r' ∈ L := by
  induction L generalizing rs with
  | nil => exact Or.inl h
  | cons x L ih =>
    simp only [List.foldl_cons] at h
    rcases ih (upsert rs x) h with h2 | h2
    · rcases mem_of_mem_upsert h2 with h3 | h3
      · exact Or.inl h3
      · exact Or.inr (by rw [h3]; exact List.mem_cons_self _ _)
    · exact Or.inr (List.mem_cons_of_mem _ h2)

end VectorMemory

open VectorMemory in
/-- C3: for a collection whose dimension is fixed at d (with every
stored embedding of length d), an add whose batch contains an
embedding of a different length returns DimensionMismatch — and, the
result being an error, no new collection state is produced, so the
record set is unchanged (all-or-nothing) — while every successful add
keeps the dimension and leaves every stored embedding of length d. -/
theorem c3_dimension_invariant (c : VectorMemory.Collection) (d : Nat)
    (ids : List String) (embs : List Embedding) (metas : List Metadata)
    (hrecs : ∀ r ∈ c.recs, r.emb.length = d)
    (hdim : c.dim = some d)
    (hlen : ids.length = embs.length ∧ embs.length = metas.length) :
    ((∃ e ∈ embs, e.length ≠ d) →
      c.addBatch ids embs metas = .error .DimensionMismatch) ∧
    (∀ c', c.addBatch ids embs metas = .ok c' →
      c'.dim = some d ∧ ∀ r ∈ c'.recs, r.emb.length = d) := by
  cases c with
  | mk dim recs =>
    simp only [VectorMemory.Collection.dim] at hdim
    subst hdim
    constructor
    · rintro ⟨e, he, hne⟩
      have hall : embs.all (fun e => e.length = d) = false := by
        simp only [List.all_eq_false, decide_eq_true_eq]
        exact ⟨e, he, hne⟩
      simp [Collection.addBatch, hlen.1, hlen.2, hall]
    · intro c' hok
      by_cases hall : embs.all (fun e => e.length = d) = true
      · simp [Collection.addBatch, hlen.1, hlen.2, hall] at hok
        simp only [List.all_eq_true, decide_eq_true_eq] at hall
        rw [← hok]
        refine ⟨rfl, ?_⟩
        intro r hrr
        rcases foldl_upsert_mem _ _ _ hrr with h | h
        · exact hrecs r h
        · rcases List.mem_map.1 h with ⟨p, hp, he⟩
          obtain ⟨pid, pe, pm⟩ := p
          have h1 : (pe, pm) ∈ embs.zip metas := (List.of_mem_zip hp).2
          have h2 : pe ∈ embs := (List.of_mem_zip h1).1
          rw [← he]
          exact hall pe h2
      · rw [Bool.not_eq_true] at hall
        simp [Collection.addBatch, hlen.1, hlen.2, hall] at hok

open VectorMemory in
/-- Witness for c3_dimension_invariant on a concrete one-record
collection of dimension 2: a mismatched batch errors, and the
successful re-add of a conforming batch keeps every embedding at
length 2. -/
theorem c3_dimension_invariant_witness :
    ((∀ r ∈ [(⟨"a", [1, 0], []⟩ : Rec)], r.emb.length = 2) ∧
      ([( "b" : String)].length = [([5, 5, 5] : Embedding)].length ∧
        [([5, 5, 5] : Embedding)].length = [([] : Metadata)].length)) ∧
    ((⟨some 2, [⟨"a", [1, 0], []⟩]⟩ : Collection).addBatch
      ["b"] [[5, 5, 5]] [[]] = .error .DimensionMismatch) :=
  ⟨⟨by decide, by decide, by decide⟩,
   (c3_dimension_invariant ⟨some 2, [⟨"a", [1, 0], []⟩]⟩ 2
     ["b"] [[5, 5, 5]] [[]] (by decide) rfl ⟨rfl, rfl⟩).1
     ⟨[5, 5, 5], by decide, by decide⟩⟩
